import Mathlib

/-!
Shallow embedding of `t5/models/hf_model.py` (class `HfPyTorchModel`):
the checkpoint store (`save_checkpoint`, `load_checkpoint`,
`get_all_checkpoint_steps`), the training loop (`train`), the evaluation
orchestrator (`eval` and its inner `_eval_current_model`) and the
prediction driver (`predict`).

Modelling conventions:
* python strings are `List Char`; string literals of the source appear as
  `"...".data`;
* python ints are `Nat` (the step counter, which starts at 0 and is only
  incremented) or `Int` (user-supplied `checkpoint_steps`);
* the model directory is a list of `(filename, blob)` pairs; the model
  parameters themselves are an abstract type `P`;
* exceptions are `Except`; external collaborators (the transformer model,
  the dataset pipeline, metric functions, the vocabulary) are function
  parameters.
-/

/-! ### Decimal rendering and parsing of step numbers

python renders the step into the checkpoint filename with
`CHECKPOINT_FILE_FORMAT.format(step)` (i.e. `str(step)`) and parses it
back with `int(...)` on the regex capture group `(\d+)`. -/

/-- The character of a single decimal digit `d < 10`. -/
def digitChar (d : Nat) : Char := Char.ofNat (48 + d)

/-- Fuel-driven loop producing the decimal digits of `n`, most significant
first, in front of `acc`.  The fuel only makes the recursion structural;
`natDigits` always supplies enough. -/
def digitsGo : Nat → Nat → List Char → List Char
  | 0, _, acc => acc
  | fuel + 1, n, acc =>
    let acc' := digitChar (n % 10) :: acc
    if n < 10 then acc' else digitsGo fuel (n / 10) acc'

/-- Decimal rendering of a natural number, as python `str` (no sign, no
leading zeros, `0 ↦ "0"`). -/
def natDigits (n : Nat) : List Char := digitsGo (n + 1) n []

/-- Reference version of `natDigits` by well-founded recursion, convenient
for proofs. -/
def natDigitsSpec (n : Nat) : List Char :=
  if _h : n < 10 then [digitChar n]
  else natDigitsSpec (n / 10) ++ [digitChar (n % 10)]
termination_by n
decreasing_by
  exact Nat.div_lt_self (by omega) (by omega)

/-- Numeric value of a decimal digit character. -/
def charVal (c : Char) : Nat := c.toNat - 48

/-- Is `c` one of `'0'..'9'` (what the regex class `\d` accepts on ASCII
filenames)? -/
def isDigitChar (c : Char) : Bool := decide (48 ≤ c.toNat) && decide (c.toNat ≤ 57)

/-- Accumulator loop of decimal parsing (python `int` on a digit string). -/
def parseDigitsGo : Nat → List Char → Nat
  | acc, [] => acc
  | acc, c :: cs => parseDigitsGo (acc * 10 + charVal c) cs

/-- Parse a non-empty all-digit string as a natural number; `none`
otherwise. -/
def parseDigits (cs : List Char) : Option Nat :=
  if !cs.isEmpty && cs.all isDigitChar then some (parseDigitsGo 0 cs) else none

theorem charVal_digitChar {d : Nat} (h : d < 10) : charVal (digitChar d) = d := by
  interval_cases d <;> decide

theorem isDigitChar_digitChar {d : Nat} (h : d < 10) : isDigitChar (digitChar d) = true := by
  interval_cases d <;> decide

theorem digitsGo_eq_spec (fuel : Nat) :
    ∀ n acc, n < fuel → digitsGo fuel n acc = natDigitsSpec n ++ acc := by
  induction fuel with
  | zero => intro n acc h; omega
  | succ f ih =>
    intro n acc h
    by_cases h10 : n < 10
    · rw [digitsGo, natDigitsSpec]
      simp [h10, Nat.mod_eq_of_lt h10]
    · rw [digitsGo, natDigitsSpec]
      simp only [h10, if_false, dif_neg]
      rw [ih (n / 10) _ (by omega)]
      simp

theorem natDigits_eq_spec (n : Nat) : natDigits n = natDigitsSpec n := by
  have := digitsGo_eq_spec (n + 1) n [] (by omega)
  simpa [natDigits] using this

theorem natDigitsSpec_ne_nil (n : Nat) : natDigitsSpec n ≠ [] := by
  rw [natDigitsSpec]
  by_cases h : n < 10 <;> simp [h]

theorem natDigits_ne_nil (n : Nat) : natDigits n ≠ [] := by
  rw [natDigits_eq_spec]; exact natDigitsSpec_ne_nil n

theorem natDigitsSpec_all_digits (n : Nat) : (natDigitsSpec n).all isDigitChar = true := by
  induction n using Nat.strong_induction_on with
  | _ n ih =>
    rw [natDigitsSpec]
    by_cases h : n < 10
    · simp only [h, dif_pos, List.all_cons, List.all_nil, Bool.and_true]
      exact isDigitChar_digitChar h
    · have hd : n / 10 < n := Nat.div_lt_self (by omega) (by omega)
      simp only [h, dif_neg, not_false_iff, List.all_append, List.all_cons,
        List.all_nil, Bool.and_true]
      rw [ih (n / 10) hd, isDigitChar_digitChar (Nat.mod_lt _ (by omega))]
      rfl

theorem parseDigitsGo_append (a : Nat) (xs ys : List Char) :
    parseDigitsGo a (xs ++ ys) = parseDigitsGo (parseDigitsGo a xs) ys := by
  induction xs generalizing a with
  | nil => rfl
  | cons c cs ih => exact ih (a * 10 + charVal c)

theorem parseDigitsGo_spec (n : Nat) :
    ∀ a, parseDigitsGo a (natDigitsSpec n) = a * 10 ^ (natDigitsSpec n).length + n := by
  induction n using Nat.strong_induction_on with
  | _ n ih =>
    intro a
    rw [natDigitsSpec]
    by_cases h : n < 10
    · simp only [h, dif_pos]
      show a * 10 + charVal (digitChar n) = a * 10 ^ [digitChar n].length + n
      rw [charVal_digitChar h]
      norm_num
    · have hd : n / 10 < n := Nat.div_lt_self (by omega) (by omega)
      simp only [h, dif_neg, not_false_iff]
      rw [parseDigitsGo_append, ih (n / 10) hd]
      show (a * 10 ^ (natDigitsSpec (n / 10)).length + n / 10) * 10
            + charVal (digitChar (n % 10))
          = a * 10 ^ ((natDigitsSpec (n / 10)) ++ [digitChar (n % 10)]).length + n
      rw [charVal_digitChar (Nat.mod_lt _ (by omega : 0 < 10))]
      rw [List.length_append]
      have hmod : n / 10 * 10 + n % 10 = n := by omega
      calc (a * 10 ^ (natDigitsSpec (n / 10)).length + n / 10) * 10 + n % 10
          = a * 10 ^ ((natDigitsSpec (n / 10)).length + [digitChar (n % 10)].length)
              + (n / 10 * 10 + n % 10) := by
            simp only [List.length_singleton, pow_succ]; ring
        _ = a * 10 ^ ((natDigitsSpec (n / 10)).length + [digitChar (n % 10)].length) + n := by
            rw [hmod]

/-- Round trip: the regex capture parsed with `int` recovers the step that
`str` rendered. -/
theorem parseDigits_natDigits (n : Nat) : parseDigits (natDigits n) = some n := by
  rw [natDigits_eq_spec, parseDigits]
  have h1 : (natDigitsSpec n).isEmpty = false := by
    cases h : natDigitsSpec n with
    | nil => exact absurd h (natDigitsSpec_ne_nil n)
    | cons c cs => rfl
  rw [h1, natDigitsSpec_all_digits n]
  simp [parseDigitsGo_spec n 0]

theorem natDigits_injective : Function.Injective natDigits := by
  intro a b h
  have := parseDigits_natDigits a
  rw [h, parseDigits_natDigits b] at this
  exact (Option.some_injective _ this).symm

/-! ### Checkpoint filenames (`CHECKPOINT_FILE_FORMAT = "model-{}.checkpoint"`) -/

/-- `CHECKPOINT_FILE_FORMAT.format(step)` for the (non-negative) step
counter. -/
def checkpointFileName (step : Nat) : List Char :=
  "model-".data ++ natDigits step ++ ".checkpoint".data

/-- The glob test `model-*.checkpoint` applied to a filename in the model
directory (`tf.io.gfile.glob` of `CHECKPOINT_FILE_FORMAT.format("*")`):
the name starts with `model-`, ends with `.checkpoint`, and is long
enough that the two do not overlap. -/
def globCheckpoint (name : List Char) : Bool :=
  "model-".data.isPrefixOf name && ".checkpoint".data.isSuffixOf name
    && decide (17 ≤ name.length)

/-- The step captured by `re.match(".*model-(\d+).checkpoint", path)` and
parsed with `int`, on a glob-matched filename: the characters between the
`model-` head and the `.checkpoint` tail.  (On a filename that matches the
glob but whose middle is not a pure digit string the python code would
raise `AttributeError` from `.group` on a failed match, or capture a
shorter digit run; such names are never produced by `save_checkpoint`,
and we return `none` for them.) -/
def extractStep (name : List Char) : Option Nat :=
  parseDigits ((name.drop 6).take (name.length - 17))

theorem extractStep_checkpointFileName (s : Nat) :
    extractStep (checkpointFileName s) = some s := by
  have hlen : (checkpointFileName s).length = 17 + (natDigits s).length := by
    simp [checkpointFileName]
    omega
  rw [extractStep, hlen]
  have hdrop : (checkpointFileName s).drop 6 = natDigits s ++ ".checkpoint".data := by
    rw [checkpointFileName, show (6 : Nat) = "model-".data.length from rfl,
      List.append_assoc, List.drop_left]
  rw [hdrop]
  have htake : (natDigits s ++ ".checkpoint".data).take (17 + (natDigits s).length - 17)
      = natDigits s := by
    rw [show 17 + (natDigits s).length - 17 = (natDigits s).length by omega, List.take_left]
  rw [htake, parseDigits_natDigits]

theorem globCheckpoint_checkpointFileName (s : Nat) :
    globCheckpoint (checkpointFileName s) = true := by
  have h1 : 1 ≤ (natDigits s).length := List.length_pos.mpr (natDigits_ne_nil s)
  rw [globCheckpoint, Bool.and_eq_true, Bool.and_eq_true]
  refine ⟨⟨?_, ?_⟩, ?_⟩
  · rw [List.isPrefixOf_iff_prefix, checkpointFileName, List.append_assoc]
    exact List.prefix_append _ _
  · rw [List.isSuffixOf_iff_suffix, checkpointFileName]
    exact List.suffix_append _ _
  · rw [decide_eq_true_iff, checkpointFileName, List.length_append, List.length_append]
    have h6 : "model-".data.length = 6 := rfl
    have h11 : ".checkpoint".data.length = 11 := rfl
    omega

theorem checkpointFileName_injective : Function.Injective checkpointFileName := by
  intro a b h
  have := extractStep_checkpointFileName a
  rw [h, extractStep_checkpointFileName b] at this
  exact (Option.some_injective _ this).symm

/-! ### The model directory as a file store

`model_dir` is modelled as a list of `(filename, blob)` pairs with
pairwise-distinct names (every write replaces the entry of the same
name, so directories built by this module never hold duplicates).
A directory is unordered; nothing below depends on the list order
except through the final `sorted` of `get_all_checkpoint_steps`. -/

/-- Read the blob stored at `name` (python: open the file at that path). -/
def lookupFile {C : Type} (files : List (List Char × C)) (name : List Char) : Option C :=
  match files with
  | [] => none
  | f :: fs => if f.1 = name then some f.2 else lookupFile fs name

/-- `torch.save(..., path)`: replace whatever is stored at `name` by `c`
(whole-file overwrite), creating the file if absent. -/
def writeFile {C : Type} (files : List (List Char × C)) (name : List Char) (c : C) :
    List (List Char × C) :=
  (name, c) :: files.filter (fun f => !(f.1 = name : Bool))

theorem lookupFile_filter_ne {C : Type} (files : List (List Char × C)) (name nm : List Char)
    (h : name ≠ nm) :
    lookupFile (files.filter (fun f => !(f.1 = nm : Bool))) name = lookupFile files name := by
  induction files with
  | nil => rfl
  | cons f fs ih =>
    by_cases hf : f.1 = nm
    · rw [List.filter_cons_of_neg (by simp [hf])]
      rw [ih, lookupFile, if_neg (by rw [hf]; exact fun hh => h hh.symm)]
    · rw [List.filter_cons_of_pos (by simp [hf])]
      rw [lookupFile, lookupFile]
      by_cases he : f.1 = name
      · rw [if_pos he, if_pos he]
      · rw [if_neg he, if_neg he, ih]

/-- Reading back after a write: the written name holds the new blob, every
other name is untouched. -/
theorem lookupFile_writeFile {C : Type} (files : List (List Char × C))
    (name nm : List Char) (c : C) :
    lookupFile (writeFile files nm c) name
      = if name = nm then some c else lookupFile files name := by
  rw [writeFile, lookupFile]
  by_cases h : name = nm
  · rw [if_pos h.symm, if_pos h]
  · rw [if_neg (fun hh => h hh.symm), if_neg h, lookupFile_filter_ne _ _ _ h]

/-! ### The model wrapper state

`HfPyTorchModel` instance state visible to this module: the in-memory
parameters (`self._model`'s weights, abstract type `P`), the train/eval
mode flag (`self._model.train()` / `self._model.eval()`), the step
counter `self._step`, and the files of `self._model_dir`.  The
tensorboard writer only receives output and is not modelled. -/

structure HfModel (P : Type) where
  model : P
  training : Bool
  step : Nat
  modelDirFiles : List (List Char × P)
deriving DecidableEq

/-- `save_checkpoint(self, step)`: serialize the current parameters to
`model-{step}.checkpoint` in the model directory. -/
def save_checkpoint {P : Type} (m : HfModel P) (step : Nat) : HfModel P :=
  { m with modelDirFiles := writeFile m.modelDirFiles (checkpointFileName step) m.model }

/-- `load_checkpoint(self, step)`: read `model-{step}.checkpoint`, install
the parameters, and only then set `self._step = step`.  A missing file
makes `torch.load` raise before either assignment; the error value
carries the (unchanged) state at the moment the exception propagates. -/
def load_checkpoint {P : Type} (m : HfModel P) (step : Nat) :
    Except (HfModel P) (HfModel P) :=
  match lookupFile m.modelDirFiles (checkpointFileName step) with
  | none => .error m
  | some p => .ok { m with model := p, step := step }

/-- `get_all_checkpoint_steps(self)`: glob `model-*.checkpoint` in the
model directory, return `None` when nothing matches, else the steps
extracted from the matching filenames, sorted ascending (python
`sorted`; on `Nat` with `≤` any correct sort agrees with it). -/
def get_all_checkpoint_steps {P : Type} (files : List (List Char × P)) : Option (List Nat) :=
  let checkpoint_files := (files.map Prod.fst).filter globCheckpoint
  if checkpoint_files.isEmpty then none
  else some ((checkpoint_files.filterMap extractStep).insertionSort (· ≤ ·))

/-! ### The training loop (`HfPyTorchModel.train`) -/

inductive TrainError where
  /-- `UnboundLocalError`: the trailing `if train_step % save_steps:` reads
  the loop variable `train_step`, which was never assigned because the loop
  body ran zero times. -/
  | unboundLocal
  /-- `ZeroDivisionError`: `train_step % save_steps` with `save_steps = 0`,
  raised at loop index 0 before any state change. -/
  | zeroDivision
deriving DecidableEq

/-- The body of `for train_step, batch in enumerate(itertools.islice(ds, steps))`:
`trainGo stepFn save_steps train_step remaining m`.  `stepFn` abstracts the
zero_grad / forward / backward / optimizer step acting on the parameters (the
batch contents influence nothing that this module's state records beyond the
new parameters, and the tensorboard writer only receives output).
`save_steps` is non-zero whenever this runs (guarded in `train`). -/
def trainGo {P : Type} (stepFn : P → P) (save_steps : Nat) :
    Nat → Nat → HfModel P → HfModel P
  | _, 0, m => m
  | train_step, remaining + 1, m =>
    -- `if not train_step % save_steps: self.save_checkpoint(self._step)`
    let m1 := if train_step % save_steps = 0 then save_checkpoint m m.step else m
    -- forward / backward / optimizer step, then `self._step += 1`
    let m2 := { m1 with model := stepFn m1.model, step := m1.step + 1 }
    trainGo stepFn save_steps (train_step + 1) remaining m2

/-- `train(self, mixture_or_task_name, steps, save_steps, ...)`.
`self._model.train()` first switches to train mode; the dataset is cycled
and `islice`d to `steps` batches, so the loop indices are `0 .. steps-1`.
With `steps = 0` the loop body never runs and the trailing
`if train_step % save_steps:` raises `UnboundLocalError`; with `steps ≥ 1`
and `save_steps = 0` the first iteration's `train_step % save_steps`
raises `ZeroDivisionError`. -/
def train {P : Type} (m : HfModel P) (stepFn : P → P) (steps save_steps : Nat) :
    Except TrainError (HfModel P) :=
  match steps, save_steps with
  | 0, _ => .error .unboundLocal
  | _ + 1, 0 => .error .zeroDivision
  | s + 1, ss =>
    let mLoop := trainGo stepFn ss 0 (s + 1) { m with training := true }
    -- `if train_step % save_steps: self.save_checkpoint(self._step)`
    -- with `train_step` left at the final loop index `steps - 1`
    if s % ss ≠ 0 then .ok (save_checkpoint mLoop mLoop.step) else .ok mLoop

theorem trainGo_step {P : Type} (f : P → P) (ss : Nat) :
    ∀ (n i : Nat) (m : HfModel P), (trainGo f ss i n m).step = m.step + n := by
  intro n
  induction n with
  | zero => intro i m; rfl
  | succ n ih =>
    intro i m
    rw [trainGo]
    by_cases h : i % ss = 0 <;>
      simp only [h, if_true, if_false, if_pos, if_neg, not_false_iff, save_checkpoint] <;>
      rw [ih] <;> simp <;> omega

theorem trainGo_boundary {P : Type} (f : P → P) (ss : Nat) :
    ∀ (n i : Nat) (m : HfModel P), (i + n) % ss = 0 →
      ∃ v, lookupFile (trainGo f ss i (n + 1) m).modelDirFiles
            (checkpointFileName (m.step + n)) = some v := by
  intro n
  induction n with
  | zero =>
    intro i m h
    rw [trainGo, trainGo]
    simp only [Nat.add_zero] at h ⊢
    rw [if_pos h]
    exact ⟨m.model, by
      simp only [save_checkpoint]
      rw [lookupFile_writeFile, if_pos rfl]⟩
  | succ n ih =>
    intro i m h
    rw [trainGo]
    by_cases hb : i % ss = 0
    · rw [if_pos hb]
      have := ih (i + 1)
        { save_checkpoint m m.step with
            model := f (save_checkpoint m m.step).model,
            step := (save_checkpoint m m.step).step + 1 }
        (by rw [show i + 1 + n = i + (n + 1) by omega]; exact h)
      simpa [save_checkpoint, Nat.add_assoc, Nat.add_comm 1 n] using this
    · rw [if_neg hb]
      have := ih (i + 1) { m with model := f m.model, step := m.step + 1 }
        (by rw [show i + 1 + n = i + (n + 1) by omega]; exact h)
      simpa [Nat.add_assoc, Nat.add_comm 1 n] using this

/-- C1: starting from step counter 0 with an empty model directory,
`train(steps=10, save_steps=4)` persists checkpoints at exactly the steps
{0, 4, 8, 10}: a save happens before consuming each batch whose zero-based
loop index is a multiple of 4, at the step-counter value accumulated so
far (so the checkpoint at step k holds the parameters after k optimizer
steps), plus one trailing save at step 10 because the final loop index 9
is not a multiple of 4. -/
theorem claim_C1_train_checkpoint_schedule {P : Type} (p : P) (f : P → P) :
    ∃ m' : HfModel P,
      train ⟨p, false, 0, []⟩ f 10 4 = .ok m'
      ∧ get_all_checkpoint_steps m'.modelDirFiles = some [0, 4, 8, 10]
      ∧ lookupFile m'.modelDirFiles (checkpointFileName 0) = some p
      ∧ lookupFile m'.modelDirFiles (checkpointFileName 4) = some (f^[4] p)
      ∧ lookupFile m'.modelDirFiles (checkpointFileName 8) = some (f^[8] p)
      ∧ lookupFile m'.modelDirFiles (checkpointFileName 10) = some (f^[10] p)
      ∧ m'.step = 10 := by
  have hloop : trainGo f 4 0 10 (⟨p, true, 0, []⟩ : HfModel P)
      = ⟨f^[10] p, true, 10,
          [(checkpointFileName 8, f^[8] p), (checkpointFileName 4, f^[4] p),
           (checkpointFileName 0, p)]⟩ := rfl
  have htrain : train ⟨p, false, 0, []⟩ f 10 4
      = .ok (save_checkpoint (trainGo f 4 0 10 ⟨p, true, 0, []⟩)
              (trainGo f 4 0 10 ⟨p, true, 0, []⟩).step) := rfl
  rw [hloop] at htrain
  rw [show (⟨f^[10] p, true, 10,
        [(checkpointFileName 8, f^[8] p), (checkpointFileName 4, f^[4] p),
         (checkpointFileName 0, p)]⟩ : HfModel P).step = 10 from rfl] at htrain
  exact ⟨_, htrain, rfl, rfl, rfl, rfl, rfl, rfl⟩

/-- C9: calling `train` with `steps = 0` raises `UnboundLocalError` at the
trailing-checkpoint check — the loop variable `train_step` is never
assigned when the loop body runs zero times — for every starting state and
every `save_steps`. -/
theorem claim_C9_train_zero_steps {P : Type} (m : HfModel P) (f : P → P) (save_steps : Nat) :
    train m f 0 save_steps = .error .unboundLocal := rfl

/-- C2 (amended): for `steps ≥ 1` and `save_steps ≥ 1`, `train` completes
and: when the final loop index `steps - 1` is NOT a multiple of
`save_steps`, the trailing save persists a checkpoint at the final step
counter holding the final parameters; when it IS a multiple, the last save
was made during the final iteration at counter value `final - 1`, before
the final optimizer step, and that is where the newest checkpoint sits. -/
theorem claim_C2_train_last_checkpoint {P : Type} (m : HfModel P) (f : P → P)
    (steps save_steps : Nat) (hs : 1 ≤ steps) (hss : 1 ≤ save_steps) :
    ∃ m', train m f steps save_steps = .ok m'
      ∧ m'.step = m.step + steps
      ∧ ((steps - 1) % save_steps ≠ 0 →
          lookupFile m'.modelDirFiles (checkpointFileName m'.step) = some m'.model)
      ∧ ((steps - 1) % save_steps = 0 →
          ∃ v, lookupFile m'.modelDirFiles (checkpointFileName (m'.step - 1)) = some v) := by
  obtain ⟨s, rfl⟩ : ∃ s, steps = s + 1 := ⟨steps - 1, by omega⟩
  obtain ⟨t, rfl⟩ : ∃ t, save_steps = t + 1 := ⟨save_steps - 1, by omega⟩
  have htrain : train m f (s + 1) (t + 1)
      = (if s % (t + 1) ≠ 0
         then .ok (save_checkpoint (trainGo f (t + 1) 0 (s + 1) { m with training := true })
                    (trainGo f (t + 1) 0 (s + 1) { m with training := true }).step)
         else .ok (trainGo f (t + 1) 0 (s + 1) { m with training := true })) := rfl
  have hstep : (trainGo f (t + 1) 0 (s + 1) { m with training := true }).step
      = m.step + (s + 1) := trainGo_step f (t + 1) (s + 1) 0 _
  by_cases hb : s % (t + 1) = 0
  · refine ⟨trainGo f (t + 1) 0 (s + 1) { m with training := true },
      by rw [htrain, if_neg (by simpa using hb)], hstep, ?_, ?_⟩
    · intro hne
      exact absurd (by simpa using hb) hne
    · intro _
      have := trainGo_boundary f (t + 1) s 0 { m with training := true } (by simpa using hb)
      rw [hstep]
      simpa [show m.step + (s + 1) - 1 = m.step + s by omega] using this
  · refine ⟨save_checkpoint (trainGo f (t + 1) 0 (s + 1) { m with training := true })
      (trainGo f (t + 1) 0 (s + 1) { m with training := true }).step,
      by rw [htrain, if_pos (by simpa using hb)], by simpa [save_checkpoint] using hstep, ?_, ?_⟩
    · intro _
      simp only [save_checkpoint]
      rw [lookupFile_writeFile, if_pos rfl]
    · intro he
      exact absurd (by simpa using he) hb

/-- C2 witness: the amended theorem instantiated at steps = 9,
save_steps = 4 (a boundary final index). -/
theorem claim_C2_train_last_checkpoint_witness :
    ∃ m', train (⟨0, false, 0, []⟩ : HfModel Nat) Nat.succ 9 4 = .ok m'
      ∧ m'.step = (⟨0, false, 0, []⟩ : HfModel Nat).step + 9
      ∧ ((9 - 1) % 4 ≠ 0 →
          lookupFile m'.modelDirFiles (checkpointFileName m'.step) = some m'.model)
      ∧ ((9 - 1) % 4 = 0 →
          ∃ v, lookupFile m'.modelDirFiles (checkpointFileName (m'.step - 1)) = some v) :=
  claim_C2_train_last_checkpoint _ Nat.succ 9 4 (by omega) (by omega)

/-- C2 counterexample to the claim as stated: with steps = 9 and
save_steps = 4, training completes with final step counter 9, but no
checkpoint exists at step 9 — the checkpoints are exactly {0, 4, 8}, so
the last model state reached (after the 9th optimizer step) was never
persisted. -/
theorem claim_C2_counterexample :
    ∃ m', train (⟨0, false, 0, []⟩ : HfModel Nat) Nat.succ 9 4 = .ok m'
      ∧ m'.step = 9
      ∧ lookupFile m'.modelDirFiles (checkpointFileName 9) = none
      ∧ get_all_checkpoint_steps m'.modelDirFiles = some [0, 4, 8] := by
  exact ⟨_, rfl, rfl, rfl, rfl⟩

/-! ### The evaluation orchestrator (`HfPyTorchModel.eval`)

The external collaborators (dataset pipeline, generation, vocabulary
decode, postprocessing, metric functions) enter as function parameters;
the tensorboard writer and `logging` only receive output and are not
modelled (note: the skip notice at source line 394 is a broken non-f-string,
but a notice is logged).  The `<task>_targets` / `<task>_inputs` dumps
written during the pre-caching pass are write-only whole-file overwrites
that nothing reads back, and are not recorded in the state. -/

inductive EvalError where
  /-- `ValueError(f"The '{split}' split of {task.name} is empty.")`. -/
  | emptySplit (taskName : List Char)
  /-- `KeyError`: `_eval_current_model` reads `cached_examples[task.name]`
  for every task of the (filtered) task list, but the caching pass only
  populated tasks with metric functions. -/
  | keyError (taskName : List Char)
  /-- `ValueError(f"#targets (...) != #predictions (...)")`. -/
  | countMismatch (msg : List Char)
  /-- `TypeError`: `for checkpoint_step in checkpoint_steps:` with
  `checkpoint_steps = None` returned by `get_all_checkpoint_steps` when the
  model directory holds no checkpoint. -/
  | noneNotIterable
  /-- `ValueError(f"checkpoint_steps must be None, int or list; got ...")`. -/
  | badStepsType
  /-- `torch.load` on a checkpoint path that does not exist. -/
  | missingCheckpoint (step : Int)
deriving DecidableEq

/-- A task as `eval` consumes it (external registry entity). -/
structure EvalTask (B Ex T Pr S : Type) where
  name : List Char
  splits : List (List Char)
  /-- `task.metric_fns`: each maps (targets, predictions) to a score
  mapping (modelled opaquely as `S`). -/
  metric_fns : List (List T → List Pr → S)
  /-- `task.postprocess_fn(decoded, example=ex)` (prediction mode). -/
  postprocess : Pr → Ex → Pr
  /-- `task.postprocess_fn(targets_plaintext, example=ex, is_target=True)`. -/
  postprocessTarget : Ex → T

/-- The external machinery `eval` drives: the dataset pipeline (already
materialized with `list(ds)`), the `_unbatch` helper, and generation
(`self._model.generate` on a batch followed by `vocab.decode` per
predicted sequence; the `Bool` is the train/eval mode flag of the model,
set to eval mode before generating). -/
structure EvalEnv (P B Ex Pr : Type) where
  getDs : List Char → List B
  unbatch : B → List Ex
  gen : Bool → P → B → List Pr

/-- The pre-caching pass (`eval` source lines 406-433): for every task
with at least one metric function, materialize its batches, fail if
empty, unbatch, postprocess the targets, and cache
`(task.name, (targets, batches))`. -/
def buildCache {P B Ex T Pr S : Type} (env : EvalEnv P B Ex Pr) :
    List (EvalTask B Ex T Pr S) → Except EvalError (List (List Char × List T × List B))
  | [] => .ok []
  | t :: ts =>
    if t.metric_fns.isEmpty then buildCache env ts
    else
      let batches := env.getDs t.name
      if batches.isEmpty then .error (.emptySplit t.name)
      else
        let examples := (batches.map env.unbatch).flatten
        let targets := examples.map t.postprocessTarget
        match buildCache env ts with
        | .error e => .error e
        | .ok rest => .ok ((t.name, targets, batches) :: rest)

/-- `f"{task.name}_{self._step}_predictions"`. -/
def predictionsFileName (taskName : List Char) (step : Nat) : List Char :=
  taskName ++ ['_'] ++ natDigits step ++ "_predictions".data

/-- `f"#targets ({len(targets)}) != #predictions ({len(predictions)})"`. -/
def countMismatchMsg (nt np : Nat) : List Char :=
  "#targets (".data ++ natDigits nt ++ ") != #predictions (".data ++ natDigits np ++ [')']

/-- The per-batch generation/decoding/postprocessing loop of
`_eval_current_model`: for each cached batch, generate, decode, pair with
the unbatched examples (`zip`, so extra or missing generations change the
count), and postprocess. -/
def taskPredictions {B Ex Pr : Type} (genB : B → List Pr) (unbatch : B → List Ex)
    (postprocess : Pr → Ex → Pr) (batches : List B) : List Pr :=
  (batches.map (fun batch =>
      ((genB batch).zip (unbatch batch)).map (fun pe => postprocess pe.1 pe.2))).flatten

/-- One task inside `_eval_current_model` (source lines 437-470): build the
predictions, enforce `len(targets) == len(predictions)` (raising a
`ValueError` naming both counts otherwise), then write the predictions
file and compute every metric. -/
def evalOneTask {B Ex T Pr S : Type} (genB : B → List Pr) (unbatch : B → List Ex)
    (step : Nat) (task : EvalTask B Ex T Pr S) (targets : List T) (batches : List B) :
    Except EvalError ((List Char × List Pr) × List S) :=
  let predictions := taskPredictions genB unbatch task.postprocess batches
  if targets.length ≠ predictions.length then
    .error (.countMismatch (countMismatchMsg targets.length predictions.length))
  else
    .ok ((predictionsFileName task.name step, predictions),
         task.metric_fns.map (fun fn => fn targets predictions))

/-- The task loop of `_eval_current_model`, collecting the prediction
files written and the metric scores; the first per-task exception
aborts the whole call. -/
def evalTasksGo {P B Ex T Pr S : Type} (env : EvalEnv P B Ex Pr) (params : P) (step : Nat)
    (cache : List (List Char × List T × List B)) :
    List (EvalTask B Ex T Pr S) →
      Except EvalError (List (List Char × List Pr) × List (List S))
  | [] => .ok ([], [])
  | t :: ts =>
    match lookupFile cache t.name with
    | none => .error (.keyError t.name)
    | some (tg, bs) =>
      match evalOneTask (env.gen false params) env.unbatch step t tg bs with
      | .error e => .error e
      | .ok (file, scores) =>
        match evalTasksGo env params step cache ts with
        | .error e => .error e
        | .ok (files, scoresList) => .ok (file :: files, scores :: scoresList)

/-- What one run of `_eval_current_model` produces: the prediction files
written into the summary directory and the per-task, per-metric scores
emitted to the writer. -/
structure EvalRun (Pr S : Type) where
  predictionFiles : List (List Char × List Pr)
  scores : List (List S)
deriving DecidableEq

/-- `_eval_current_model()`: switch the model to inference mode
(`self._model.eval()`), then run every (filtered) task against the cache
using the current in-memory parameters and step counter. -/
def evalCurrentModel {P B Ex T Pr S : Type} (env : EvalEnv P B Ex Pr)
    (tasks : List (EvalTask B Ex T Pr S))
    (cache : List (List Char × List T × List B)) (m : HfModel P) :
    Except EvalError (HfModel P × EvalRun Pr S) :=
  match evalTasksGo env m.model m.step cache tasks with
  | .error e => .error e
  | .ok (files, scores) => .ok ({ m with training := false }, ⟨files, scores⟩)

/-- The dynamic type of the `checkpoint_steps` argument. -/
inductive CheckpointStepsArg where
  | noneArg
  | intArg (n : Int)
  | strArg (s : List Char)
  | listArg (l : List Int)
  /-- Any value of any type other than `None`/`int`/`str`/`list`/`tuple`. -/
  | otherArg
deriving DecidableEq

/-- The `checkpoint_steps` dispatch of `eval` (source lines 474-487):
`None` means evaluate the current in-memory state (`.ok none`); an int is
coerced to a singleton list; the string `"all"` expands through
`get_all_checkpoint_steps` — whose `None` return for an empty model
directory makes the subsequent `for checkpoint_step in checkpoint_steps:`
raise a `TypeError`; any remaining non-list/tuple value raises
`ValueError`. -/
def resolveCheckpointSteps {P : Type} (files : List (List Char × P)) :
    CheckpointStepsArg → Except EvalError (Option (List Int))
  | .noneArg => .ok none
  | .intArg n => .ok (some [n])
  | .strArg s =>
    if s = "all".data then
      match get_all_checkpoint_steps files with
      | none => .error .noneNotIterable
      | some steps => .ok (some (steps.map Int.ofNat))
    else .error .badStepsType
  | .listArg l => .ok (some l)
  | .otherArg => .error .badStepsType

/-- `for checkpoint_step in checkpoint_steps: load_checkpoint; eval`.
A negative requested step yields the filename `model--k.checkpoint`,
which `save_checkpoint` can never have produced, so `torch.load` fails
for it just as for a missing non-negative step. -/
def evalLoadedLoop {P B Ex T Pr S : Type} (env : EvalEnv P B Ex Pr)
    (tasks : List (EvalTask B Ex T Pr S))
    (cache : List (List Char × List T × List B)) :
    List Int → HfModel P → List (EvalRun Pr S) →
      Except EvalError (HfModel P × List (EvalRun Pr S))
  | [], m, acc => .ok (m, acc.reverse)
  | s :: ss, m, acc =>
    match s with
    | .negSucc _ => .error (.missingCheckpoint s)
    | .ofNat n =>
      match load_checkpoint m n with
      | .error _ => .error (.missingCheckpoint s)
      | .ok m1 =>
        match evalCurrentModel env tasks cache m1 with
        | .error e => .error e
        | .ok (m2, run) => evalLoadedLoop env tasks cache ss m2 (run :: acc)

/-- `eval(self, mixture_or_task_name, sequence_length, batch_size,
checkpoint_steps, summary_dir, split, **generate_kwargs)`: filter out the
tasks lacking the requested split (with a log notice each), pre-cache the
targets and batches of every remaining metric-bearing task, then dispatch
on `checkpoint_steps` and run `_eval_current_model` once in place or once
per loaded checkpoint. -/
def eval {P B Ex T Pr S : Type} (env : EvalEnv P B Ex Pr)
    (tasks0 : List (EvalTask B Ex T Pr S)) (split : List Char)
    (checkpoint_steps : CheckpointStepsArg) (m : HfModel P) :
    Except EvalError (HfModel P × List (EvalRun Pr S)) :=
  let tasks := tasks0.filter (fun t => t.splits.contains split)
  match buildCache env tasks with
  | .error e => .error e
  | .ok cache =>
    match resolveCheckpointSteps m.modelDirFiles checkpoint_steps with
    | .error e => .error e
    | .ok none =>
      match evalCurrentModel env tasks cache m with
      | .error e => .error e
      | .ok (m1, run) => .ok (m1, [run])
    | .ok (some steps) => evalLoadedLoop env tasks cache steps m []

/-! ### The prediction driver (`HfPyTorchModel.predict`) -/

/-- `dataset.batch(batch_size, drop_remainder=False)` applied to the
encoded inputs: consecutive chunks of `batch_size` items in original
order, the last chunk possibly shorter.  (`batch_size = 0` is rejected
inside the external pipeline and never reaches this point; the model
returns no batches for totality.) -/
def chunkList {α : Type} (batch_size : Nat) (l : List α) : List (List α) :=
  match batch_size, l with
  | _, [] => []
  | 0, _ => []
  | b + 1, x :: xs => ((x :: xs).take (b + 1)) :: chunkList (b + 1) ((x :: xs).drop (b + 1))
termination_by l.length
decreasing_by
  simp only [List.length_drop, List.length_cons]
  omega

/-- `write_lines_to_file(lines, filename)`: the file contents after the
whole-file overwrite — the string-coerced lines joined by newlines. -/
def write_lines_to_file (lines : List (List Char)) : List Char :=
  List.intercalate ['\n'] lines

/-- `predict(self, inputs, sequence_length, batch_size, ...)` on a literal
list of input strings: encode each input (vocabulary encoding plus the
padding/masking of `tokens_to_batches`, abstracted as `encode`), batch
them, then generate (`genRow` is the per-row action of
`self._model.generate`, which produces one output sequence per input row,
in row order, in the model's current train/eval mode — `predict` never
switches modes) and decode each predicted sequence. -/
def predict {P Tok Sq : Type} (m : HfModel P) (inputs : List (List Char)) (batch_size : Nat)
    (encode : List Char → Tok) (genRow : Bool → P → Tok → Sq) (decode : Sq → List Char) :
    List (List Char) :=
  let dataset := chunkList batch_size (inputs.map encode)
  (dataset.map (fun batch => (batch.map (genRow m.training m.model)).map decode)).flatten

/-- The contents written to `output_file` when one is supplied
(`write_lines_to_file(predictions, output_file)`). -/
def predictOutputFile {P Tok Sq : Type} (m : HfModel P) (inputs : List (List Char))
    (batch_size : Nat) (encode : List Char → Tok) (genRow : Bool → P → Tok → Sq)
    (decode : Sq → List Char) : List Char :=
  write_lines_to_file (predict m inputs batch_size encode genRow decode)

theorem chunkList_map_flatten {α β : Type} (b : Nat) (h : α → β) (l : List α) :
    ((chunkList (b + 1) l).map (fun c => c.map h)).flatten = l.map h := by
  generalize hn : l.length = n
  induction n using Nat.strong_induction_on generalizing l with
  | _ n ih =>
    cases l with
    | nil => simp [chunkList]
    | cons x xs =>
      rw [chunkList]
      have hlt : ((x :: xs).drop (b + 1)).length < n := by
        subst hn
        simp only [List.length_drop, List.length_cons]
        omega
      simp only [List.map_cons, List.flatten_cons]
      rw [ih _ hlt _ rfl, ← List.map_append, List.take_append_drop]
      simp

/-- C10: `load_checkpoint` fails exactly when the checkpoint file is
absent, and then the state at the moment the exception propagates is the
unchanged caller state — in particular the step counter keeps its old
value, because `self._step = step` runs only after
`load_state_dict(torch.load(path))` has succeeded.  On success the
installed parameters are the stored blob and the counter equals the
requested step. -/
theorem claim_C10_load_checkpoint_failure_keeps_step {P : Type} (m : HfModel P) (step : Nat) :
    (lookupFile m.modelDirFiles (checkpointFileName step) = none →
      load_checkpoint m step = .error m)
    ∧ (∀ me, load_checkpoint m step = .error me → me.step = m.step ∧ me = m)
    ∧ (∀ p, lookupFile m.modelDirFiles (checkpointFileName step) = some p →
      load_checkpoint m step = .ok { m with model := p, step := step })
    ∧ (∀ m', load_checkpoint m step = .ok m' → m'.step = step) := by
  refine ⟨?_, ?_, ?_, ?_⟩
  · intro h
    rw [load_checkpoint, h]
  · intro me h
    rw [load_checkpoint] at h
    cases hl : lookupFile m.modelDirFiles (checkpointFileName step) with
    | none =>
      rw [hl] at h
      cases h
      exact ⟨rfl, rfl⟩
    | some p => rw [hl] at h; cases h
  · intro p h
    rw [load_checkpoint, h]
  · intro m' h
    rw [load_checkpoint] at h
    cases hl : lookupFile m.modelDirFiles (checkpointFileName step) with
    | none => rw [hl] at h; cases h
    | some p =>
      rw [hl] at h
      cases h
      rfl

/-- C10 witness: a missing checkpoint (empty directory) leaves the state
untouched; a present checkpoint is installed with the requested step. -/
theorem claim_C10_load_checkpoint_failure_keeps_step_witness :
    load_checkpoint (⟨5, false, 3, []⟩ : HfModel Nat) 7 = .error ⟨5, false, 3, []⟩
    ∧ (⟨5, false, 3, []⟩ : HfModel Nat).step = 3
    ∧ load_checkpoint (⟨5, false, 3, [(checkpointFileName 7, 9)]⟩ : HfModel Nat) 7
        = .ok ⟨9, false, 7, [(checkpointFileName 7, 9)]⟩ :=
  ⟨(claim_C10_load_checkpoint_failure_keeps_step ⟨5, false, 3, []⟩ 7).1 rfl, rfl,
   (claim_C10_load_checkpoint_failure_keeps_step
      ⟨5, false, 3, [(checkpointFileName 7, 9)]⟩ 7).2.2.1 9 rfl⟩

/-- C3: inside `_eval_current_model`, for every task, if the cached target
count differs from the generated prediction count the task's evaluation
raises a `ValueError` whose message embeds the decimal renderings of both
counts; only when the counts agree does it proceed to write the
predictions file and compute every metric function. -/
theorem claim_C3_eval_count_mismatch {B Ex T Pr S : Type}
    (genB : B → List Pr) (unbatch : B → List Ex) (step : Nat)
    (task : EvalTask B Ex T Pr S) (targets : List T) (batches : List B) :
    (targets.length ≠ (taskPredictions genB unbatch task.postprocess batches).length →
      evalOneTask genB unbatch step task targets batches
          = .error (.countMismatch (countMismatchMsg targets.length
              (taskPredictions genB unbatch task.postprocess batches).length))
        ∧ ∃ pre mid post,
            countMismatchMsg targets.length
                (taskPredictions genB unbatch task.postprocess batches).length
              = pre ++ natDigits targets.length ++ mid
                  ++ natDigits (taskPredictions genB unbatch task.postprocess batches).length
                  ++ post)
    ∧ (targets.length = (taskPredictions genB unbatch task.postprocess batches).length →
      evalOneTask genB unbatch step task targets batches
          = .ok ((predictionsFileName task.name step,
                  taskPredictions genB unbatch task.postprocess batches),
                 task.metric_fns.map
                   (fun fn => fn targets
                     (taskPredictions genB unbatch task.postprocess batches)))) := by
  constructor
  · intro hne
    constructor
    · rw [evalOneTask, if_pos hne]
    · refine ⟨"#targets (".data, ") != #predictions (".data, [')'], ?_⟩
      rw [countMismatchMsg]
  · intro heq
    rw [evalOneTask, if_neg (not_not_intro heq)]

theorem evalCurrentModel_ok_state {P B Ex T Pr S : Type} (env : EvalEnv P B Ex Pr)
    (tasks : List (EvalTask B Ex T Pr S))
    (cache : List (List Char × List T × List B)) (m m1 : HfModel P) (run : EvalRun Pr S)
    (h : evalCurrentModel env tasks cache m = .ok (m1, run)) :
    m1 = { m with training := false } := by
  rw [evalCurrentModel] at h
  cases hg : evalTasksGo env m.model m.step cache tasks with
  | error e => rw [hg] at h; cases h
  | ok x =>
    obtain ⟨files, scores⟩ := x
    rw [hg] at h
    simp only [Except.ok.injEq, Prod.mk.injEq] at h
    exact h.1.symm

theorem evalCurrentModel_again {P B Ex T Pr S : Type} (env : EvalEnv P B Ex Pr)
    (tasks : List (EvalTask B Ex T Pr S))
    (cache : List (List Char × List T × List B)) (m m1 : HfModel P) (run : EvalRun Pr S)
    (h : evalCurrentModel env tasks cache m = .ok (m1, run)) :
    evalCurrentModel env tasks cache m1 = .ok (m1, run) := by
  have hm1 := evalCurrentModel_ok_state env tasks cache m m1 run h
  subst hm1
  rw [evalCurrentModel] at h
  simp only [evalCurrentModel]
  cases hg : evalTasksGo env m.model m.step cache tasks with
  | error e => rw [hg] at h; cases h
  | ok y =>
    obtain ⟨files, scores⟩ := y
    rw [hg] at h
    simp only [Except.ok.injEq, Prod.mk.injEq] at h
    simp only [Except.ok.injEq, Prod.mk.injEq]
    exact ⟨trivial, h.2⟩

theorem eval_noneArg_eq {P B Ex T Pr S : Type} (env : EvalEnv P B Ex Pr)
    (tasks0 : List (EvalTask B Ex T Pr S)) (split : List Char) (m : HfModel P) :
    eval env tasks0 split .noneArg m
      = match buildCache env (tasks0.filter (fun t => t.splits.contains split)) with
        | .error e => .error e
        | .ok cache =>
          match evalCurrentModel env (tasks0.filter (fun t => t.splits.contains split))
              cache m with
          | .error e => .error e
          | .ok (m1, run) => .ok (m1, [run]) := rfl

/-- C6: calling `eval` with `checkpoint_steps=None` twice in a row with no
intervening mutation returns identical results the second time — the same
final state, the same prediction-file contents and the same metric scores
(in particular identical metric values).  The only state the first call
changes is the train/eval mode flag, which the second call sets
identically before generating, and the generated predictions depend only
on the unchanged parameters and step counter. -/
theorem claim_C6_eval_none_idempotent {P B Ex T Pr S : Type} (env : EvalEnv P B Ex Pr)
    (tasks0 : List (EvalTask B Ex T Pr S)) (split : List Char) (m m1 : HfModel P)
    (runs : List (EvalRun Pr S))
    (h : eval env tasks0 split .noneArg m = .ok (m1, runs)) :
    eval env tasks0 split .noneArg m1 = .ok (m1, runs) := by
  rw [eval_noneArg_eq] at h ⊢
  cases hb : buildCache env (tasks0.filter (fun t => t.splits.contains split)) with
  | error e => rw [hb] at h; cases h
  | ok cache =>
    rw [hb] at h
    dsimp only at h ⊢
    cases hc : evalCurrentModel env (tasks0.filter (fun t => t.splits.contains split))
        cache m with
    | error e => rw [hc] at h; cases h
    | ok x =>
      obtain ⟨m1', run⟩ := x
      rw [hc] at h
      dsimp only at h
      simp only [Except.ok.injEq, Prod.mk.injEq] at h
      obtain ⟨h1, h2⟩ := h
      subst h1
      subst h2
      have hc2 := evalCurrentModel_again env _ cache m m1' run hc
      rw [hc2]

/-- C6 witness: a first `eval(checkpoint_steps=None)` call on a trivial
setup succeeds, and the theorem yields the identical second call. -/
theorem claim_C6_eval_none_idempotent_witness :
    eval (⟨fun _ => [], fun _ => [], fun _ _ _ => []⟩ : EvalEnv Nat Nat Nat Nat)
        ([] : List (EvalTask Nat Nat Nat Nat Nat)) "validation".data .noneArg
        (⟨0, false, 0, []⟩ : HfModel Nat)
      = .ok (⟨0, false, 0, []⟩, [⟨[], []⟩]) :=
  claim_C6_eval_none_idempotent ⟨fun _ => [], fun _ => [], fun _ _ _ => []⟩ []
    "validation".data ⟨0, true, 0, []⟩ ⟨0, false, 0, []⟩ [⟨[], []⟩] rfl

/-- C8: when every task of the mixture lacks the requested split, `eval`
filters them all out before doing anything else — no cache population, no
generation, no metric computation is attempted for any of them — and
evaluating the resulting zero tasks completes without error (the skip is
logged; the log call is output-only). -/
theorem claim_C8_eval_skips_tasks_without_split {P B Ex T Pr S : Type}
    (env : EvalEnv P B Ex Pr) (tasks0 : List (EvalTask B Ex T Pr S)) (split : List Char)
    (m : HfModel P) (h : ∀ t ∈ tasks0, split ∉ t.splits) :
    tasks0.filter (fun t => t.splits.contains split) = []
    ∧ eval env tasks0 split .noneArg m = .ok ({ m with training := false }, [⟨[], []⟩]) := by
  have hfilter : tasks0.filter (fun t => t.splits.contains split) = [] := by
    rw [List.filter_eq_nil_iff]
    intro t ht
    simpa using h t ht
  refine ⟨hfilter, ?_⟩
  rw [eval_noneArg_eq, hfilter]
  rfl

/-- C8 witness: a mixture with one task having only a "validation" split,
evaluated with split="test", is filtered to zero tasks and completes. -/
theorem claim_C8_eval_skips_tasks_without_split_witness :
    ([(⟨"task1".data, ["validation".data], [], fun p _ => p, fun _ => 0⟩ :
        EvalTask Nat Nat Nat Nat Nat)].filter (fun t => t.splits.contains "test".data) = [])
    ∧ eval (⟨fun _ => [], fun _ => [], fun _ _ _ => []⟩ : EvalEnv Nat Nat Nat Nat)
        ([⟨"task1".data, ["validation".data], [], fun p _ => p, fun _ => 0⟩] :
          List (EvalTask Nat Nat Nat Nat Nat))
        "test".data .noneArg (⟨7, true, 2, []⟩ : HfModel Nat)
      = .ok (⟨7, false, 2, []⟩, [⟨[], []⟩]) :=
  claim_C8_eval_skips_tasks_without_split _ _ _ _ (by decide)

/-- C4 (amended): the `checkpoint_steps` dispatch of `eval` has these
cases — `None` evaluates the current in-memory model without loading any
checkpoint (the final state keeps the caller's parameters and step
counter); a single integer is coerced to a singleton list; the literal
string `"all"` expands to every checkpoint step discovered in the model
directory *when at least one checkpoint exists*, and raises a `TypeError`
(iterating over `None`, not an input-validation error) when none exists;
a list of integers is used as given; a non-"all" string or a value of any
other type raises a `ValueError`. -/
theorem claim_C4_checkpoint_steps_dispatch {P B Ex T Pr S : Type} (m : HfModel P) :
    (resolveCheckpointSteps m.modelDirFiles .noneArg = .ok none)
    ∧ (∀ (env : EvalEnv P B Ex Pr) (tasks0 : List (EvalTask B Ex T Pr S)) split m1 runs,
        eval env tasks0 split .noneArg m = .ok (m1, runs) →
          m1.model = m.model ∧ m1.step = m.step)
    ∧ (∀ n : Int, resolveCheckpointSteps m.modelDirFiles (.intArg n) = .ok (some [n]))
    ∧ (∀ steps, get_all_checkpoint_steps m.modelDirFiles = some steps →
        resolveCheckpointSteps m.modelDirFiles (.strArg "all".data)
          = .ok (some (steps.map Int.ofNat)))
    ∧ (get_all_checkpoint_steps m.modelDirFiles = none →
        resolveCheckpointSteps m.modelDirFiles (.strArg "all".data)
          = .error .noneNotIterable)
    ∧ (∀ s, s ≠ "all".data →
        resolveCheckpointSteps m.modelDirFiles (.strArg s) = .error .badStepsType)
    ∧ (∀ l, resolveCheckpointSteps m.modelDirFiles (.listArg l) = .ok (some l))
    ∧ (resolveCheckpointSteps m.modelDirFiles .otherArg = .error .badStepsType) := by
  refine ⟨rfl, ?_, fun n => rfl, ?_, ?_, ?_, fun l => rfl, rfl⟩
  · intro env tasks0 split m1 runs h
    rw [eval_noneArg_eq] at h
    cases hb : buildCache env (tasks0.filter (fun t => t.splits.contains split)) with
    | error e => rw [hb] at h; cases h
    | ok cache =>
      rw [hb] at h
      dsimp only at h
      cases hc : evalCurrentModel env (tasks0.filter (fun t => t.splits.contains split))
          cache m with
      | error e => rw [hc] at h; cases h
      | ok x =>
        obtain ⟨m1', run⟩ := x
        rw [hc] at h
        dsimp only at h
        simp only [Except.ok.injEq, Prod.mk.injEq] at h
        obtain ⟨h1, _⟩ := h
        subst h1
        rw [evalCurrentModel_ok_state env _ cache m m1' run hc]
        exact ⟨rfl, rfl⟩
  · intro steps hsteps
    rw [resolveCheckpointSteps, if_pos rfl, hsteps]
  · intro hnone
    rw [resolveCheckpointSteps, if_pos rfl, hnone]
  · intro s hs
    rw [resolveCheckpointSteps, if_neg hs]

/-- C4 counterexample to the claim as stated: with no checkpoint in the
model directory, `checkpoint_steps="all"` neither expands to the (empty)
set of discovered steps nor raises the input error reserved for other
types — `get_all_checkpoint_steps` returns `None` and iterating over it
raises a `TypeError`, so `eval` fails. -/
theorem claim_C4_counterexample :
    eval (⟨fun _ => [], fun _ => [], fun _ _ _ => []⟩ : EvalEnv Nat Nat Nat Nat)
        ([] : List (EvalTask Nat Nat Nat Nat Nat)) "validation".data
        (.strArg "all".data) (⟨0, false, 0, []⟩ : HfModel Nat)
      = .error .noneNotIterable := rfl

/-- C4 witness: the amended dispatch behaviour instantiated at a concrete
model state with one checkpoint at step 3. -/
theorem claim_C4_checkpoint_steps_dispatch_witness :
    (resolveCheckpointSteps (⟨0, false, 0, [(checkpointFileName 3, 5)]⟩ :
        HfModel Nat).modelDirFiles .noneArg = .ok none)
    ∧ ((⟨0, false, 0, [(checkpointFileName 3, 5)]⟩ : HfModel Nat).model
          = (⟨0, false, 0, [(checkpointFileName 3, 5)]⟩ : HfModel Nat).model
        ∧ (⟨0, false, 0, [(checkpointFileName 3, 5)]⟩ : HfModel Nat).step
          = (⟨0, false, 0, [(checkpointFileName 3, 5)]⟩ : HfModel Nat).step)
    ∧ (resolveCheckpointSteps (⟨0, false, 0, [(checkpointFileName 3, 5)]⟩ :
        HfModel Nat).modelDirFiles (.intArg (-1)) = .ok (some [-1]))
    ∧ (resolveCheckpointSteps (⟨0, false, 0, [(checkpointFileName 3, 5)]⟩ :
        HfModel Nat).modelDirFiles (.strArg "all".data) = .ok (some ([3].map Int.ofNat)))
    ∧ (resolveCheckpointSteps (⟨0, false, 0, [(checkpointFileName 3, 5)]⟩ :
        HfModel Nat).modelDirFiles (.strArg "latest".data) = .error .badStepsType)
    ∧ (resolveCheckpointSteps (⟨0, false, 0, [(checkpointFileName 3, 5)]⟩ :
        HfModel Nat).modelDirFiles (.listArg [1, 2]) = .ok (some [1, 2]))
    ∧ (resolveCheckpointSteps (⟨0, false, 0, [(checkpointFileName 3, 5)]⟩ :
        HfModel Nat).modelDirFiles .otherArg = .error .badStepsType) :=
  have h := @claim_C4_checkpoint_steps_dispatch Nat Nat Nat Nat Nat Nat
    ⟨0, false, 0, [(checkpointFileName 3, 5)]⟩
  ⟨h.1,
   h.2.1 ⟨fun _ => [], fun _ => [], fun _ _ _ => []⟩ [] "validation".data
     ⟨0, false, 0, [(checkpointFileName 3, 5)]⟩ [⟨[], []⟩] rfl,
   h.2.2.1 (-1),
   h.2.2.2.1 [3] (by decide),
   h.2.2.2.2.2.1 "latest".data (by decide),
   h.2.2.2.2.2.2.1 [1, 2],
   h.2.2.2.2.2.2.2⟩

/-- C5: `get_all_checkpoint_steps` returns the `None` sentinel exactly
when no filename in the directory matches the checkpoint glob; any list
it returns is ascending; and after saving at two distinct steps `s1 ≠ s2`
into an empty directory it returns `[min s1 s2, max s1 s2]`. -/
theorem claim_C5_get_all_checkpoint_steps {P : Type} :
    (∀ files : List (List Char × P),
        ((files.map Prod.fst).filter globCheckpoint = [] ↔
          get_all_checkpoint_steps files = none))
    ∧ (∀ (files : List (List Char × P)) (l : List Nat),
        get_all_checkpoint_steps files = some l → l.Pairwise (· ≤ ·))
    ∧ (∀ (s1 s2 : Nat) (m : HfModel P), s1 ≠ s2 → m.modelDirFiles = [] →
        get_all_checkpoint_steps
            ((save_checkpoint (save_checkpoint m s1) s2).modelDirFiles)
          = some [min s1 s2, max s1 s2]) := by
  refine ⟨?_, ?_, ?_⟩
  · intro files
    rw [get_all_checkpoint_steps]
    constructor
    · intro h
      rw [h]
      rfl
    · intro h
      by_cases hf : ((files.map Prod.fst).filter globCheckpoint).isEmpty
      · cases hfl : (files.map Prod.fst).filter globCheckpoint with
        | nil => rfl
        | cons a l =>
          rw [hfl] at hf
          exact absurd hf (by simp)
      · rw [if_neg hf] at h
        cases h
  · intro files l h
    rw [get_all_checkpoint_steps] at h
    by_cases hf : ((files.map Prod.fst).filter globCheckpoint).isEmpty
    · rw [if_pos hf] at h; cases h
    · rw [if_neg hf] at h
      cases h
      exact List.sorted_insertionSort _ _
  · intro s1 s2 m hne hdir
    have hname : checkpointFileName s1 ≠ checkpointFileName s2 :=
      fun hh => hne (checkpointFileName_injective hh)
    have hfiles : (save_checkpoint (save_checkpoint m s1) s2).modelDirFiles
        = [(checkpointFileName s2, m.model), (checkpointFileName s1, m.model)] := by
      simp only [save_checkpoint, writeFile, hdir, List.filter_nil]
      rw [List.filter_cons_of_pos (by simpa using hname), List.filter_nil]
    rw [hfiles, get_all_checkpoint_steps]
    simp only [List.map_cons, List.map_nil]
    rw [List.filter_cons_of_pos (globCheckpoint_checkpointFileName s2),
      List.filter_cons_of_pos (globCheckpoint_checkpointFileName s1),
      List.filter_nil]
    rw [if_neg (by simp)]
    have hfm : List.filterMap extractStep [checkpointFileName s2, checkpointFileName s1]
        = [s2, s1] := by
      simp [List.filterMap_cons, extractStep_checkpointFileName]
    rw [hfm]
    rcases lt_or_gt_of_ne hne with hlt | hlt
    · simp only [List.insertionSort, List.orderedInsert]
      rw [if_neg (not_le.mpr hlt), min_eq_left hlt.le, max_eq_right hlt.le]
    · simp only [List.insertionSort, List.orderedInsert]
      rw [if_pos hlt.le, min_eq_right hlt.le, max_eq_left hlt.le]

/-- C5 witness: an empty directory lists as `None`; a directory with
checkpoints at steps 7 and 2 lists ascending; saving at 7 then 2 into an
empty directory lists `[min 7 2, max 7 2] = [2, 7]`. -/
theorem claim_C5_get_all_checkpoint_steps_witness :
    (get_all_checkpoint_steps ([] : List (List Char × Nat)) = none)
    ∧ ([2, 7] : List Nat).Pairwise (· ≤ ·)
    ∧ get_all_checkpoint_steps
        ((save_checkpoint (save_checkpoint (⟨0, false, 0, []⟩ : HfModel Nat) 7)
            2).modelDirFiles)
        = some [min 7 2, max 7 2] :=
  ⟨(claim_C5_get_all_checkpoint_steps.1 []).mp rfl,
   claim_C5_get_all_checkpoint_steps.2.1
     [(checkpointFileName 7, 0), (checkpointFileName 2, 0)] [2, 7] (by decide),
   claim_C5_get_all_checkpoint_steps.2.2 7 2 ⟨0, false, 0, []⟩ (by decide) rfl⟩

/-- C7: for every list of input strings and every batch size ≥ 1,
`predict` produces exactly one prediction per input, in input order — the
i-th prediction is the decoded generation for the i-th encoded input,
regardless of how the inputs were cut into batches — and the output file
written on request holds exactly these predictions, one per line. -/
theorem claim_C7_predict_count_order {P Tok Sq : Type} (m : HfModel P)
    (inputs : List (List Char)) (batch_size : Nat)
    (encode : List Char → Tok) (genRow : Bool → P → Tok → Sq) (decode : Sq → List Char)
    (hb : 1 ≤ batch_size) :
    predict m inputs batch_size encode genRow decode
        = inputs.map (fun s => decode (genRow m.training m.model (encode s)))
    ∧ (predict m inputs batch_size encode genRow decode).length = inputs.length
    ∧ predictOutputFile m inputs batch_size encode genRow decode
        = write_lines_to_file
            (inputs.map (fun s => decode (genRow m.training m.model (encode s)))) := by
  obtain ⟨b, rfl⟩ : ∃ b, batch_size = b + 1 := ⟨batch_size - 1, by omega⟩
  have hmain : predict m inputs (b + 1) encode genRow decode
      = inputs.map (fun s => decode (genRow m.training m.model (encode s))) := by
    rw [predict]
    simp only [List.map_map]
    rw [chunkList_map_flatten b (decode ∘ genRow m.training m.model) (inputs.map encode)]
    simp [Function.comp]
  exact ⟨hmain, by rw [hmain, List.length_map],
    by rw [predictOutputFile, hmain]⟩

/-- C7 witness: two inputs with batch_size 1 yield exactly 2 predictions
in input order, and an output file of exactly those two lines. -/
theorem claim_C7_predict_count_order_witness :
    predict (⟨0, false, 0, []⟩ : HfModel Nat) ["a: x".data, "a: y".data] 1
        (fun s => s) (fun _ _ t => t) (fun t => t) = ["a: x".data, "a: y".data]
    ∧ (predict (⟨0, false, 0, []⟩ : HfModel Nat) ["a: x".data, "a: y".data] 1
        (fun s => s) (fun _ _ t => t) (fun t => t)).length = 2
    ∧ predictOutputFile (⟨0, false, 0, []⟩ : HfModel Nat) ["a: x".data, "a: y".data] 1
        (fun s => s) (fun _ _ t => t) (fun t => t) = "a: x\na: y".data := by
  have h := claim_C7_predict_count_order (⟨0, false, 0, []⟩ : HfModel Nat)
    ["a: x".data, "a: y".data] 1 (fun s => s) (fun _ _ t => t) (fun t => t) (by omega)
  exact ⟨by rw [h.1]; rfl, by rw [h.2.1]; rfl, by rw [h.2.2]; rfl⟩

/-- C3 witness: 5 cached targets against a generation path yielding 4
predictions fails with a message naming both counts. -/
theorem claim_C3_eval_count_mismatch_witness :
    evalOneTask (fun (_ : List Nat) => [1, 2, 3, 4]) (fun (b : List Nat) => b) 0
        ⟨"t1".data, ["validation".data], [fun t p => t.length * 10 + p.length],
         fun p _ => p, fun e => e⟩ [9, 9, 9, 9, 9] [[0, 1, 2, 3, 4]]
      = .error (.countMismatch "#targets (5) != #predictions (4)".data)
    ∧ ∃ pre mid post,
        ("#targets (5) != #predictions (4)".data : List Char)
          = pre ++ natDigits 5 ++ mid ++ natDigits 4 ++ post := by
  have h := claim_C3_eval_count_mismatch (fun (_ : List Nat) => [1, 2, 3, 4])
      (fun (b : List Nat) => b) 0
      ⟨"t1".data, ["validation".data], [fun t p => t.length * 10 + p.length],
       fun p _ => p, fun e => e⟩ [9, 9, 9, 9, 9] [[0, 1, 2, 3, 4]]
  have h2 := h.1 (by decide)
  constructor
  · exact h2.1.trans (by rfl)
  · obtain ⟨pre, mid, post, hmsg⟩ := h2.2
    exact ⟨pre, mid, post, hmsg⟩
